import Mathlib

/-!
# ShowTrackr — verification of the enrichment & classification engine

Shallow embedding of the show-enrichment logic of the ShowTrackr repository:

* `src/lib/enrich-shows.ts` — the shared `enrichUserShows` engine
  (tag computation, auto status transition, priority sort);
* `src/app/(app)/my-shows/page.tsx` — the older inline enrichment copy
  kept in the My Shows page (`MyShowsPage`);
* the TMDB layer's `getShowSeasonMeta` (latest-season premiere date);
* the watch-progress mutation helpers `markEpisodeWatched` /
  `unmarkEpisodeWatched`.

Modelling conventions:

* Dates: the code parses ISO strings with `new Date(s + "T00:00:00")` and
  only ever compares the results, so dates and timestamps are modelled as
  integers (a monotone injective parse).  The calendar-month bounds
  `threeMonthsAgo` / `threeMonthsLater` computed by `setMonth` are taken as
  parameters of the engine.
* JavaScript `Map` objects are modelled as association lists with
  last-write-wins `set` (`mapSet`) and first-match `get` (`mapGet`).
* `Promise.allSettled` outcomes are modelled as `Option ShowSeasonMeta`
  per input show (a rejected promise and a fulfilled `null` both leave
  the show out of `metaMap`, exactly as in the source).
* `Array.prototype.sort` (stable since ES2019) with a consistent
  comparator `c` is modelled as `List.mergeSort` with
  `le a b := c a b ≤ 0`; both produce the unique stable sort.
* The fire-and-forget Supabase update commands are modelled as an
  explicit list of `(new status, row ids)` commands in the result record,
  and the set of metadata fetches issued is recorded as `fetchedShowIds`.
-/

namespace ShowTrackr

/-- `newSeasonTag` values of `EnrichedUserShow` (`"soon" | "out"`). -/
inductive NewSeasonTag
  | soon
  | out
deriving DecidableEq, Repr

/-- `nextEpisode` / `lastEpisode` entries of `ShowSeasonMeta` (tmdb.ts). -/
structure EpisodeInfo where
  seasonNumber : Int
  episodeNumber : Int
  airDate : Option Int
deriving DecidableEq, Repr

/-- `ShowSeasonMeta` from the TMDB layer (tmdb.ts). -/
structure ShowSeasonMeta where
  tmdbId : Int
  nextEpisode : Option EpisodeInfo
  lastEpisode : Option EpisodeInfo
  numberOfSeasons : Int
  latestSeasonAirDate : Option Int
  isRunning : Bool
deriving DecidableEq, Repr

/-- `UserShow` row from Supabase (types/index.ts).  `status` is a string at
runtime (the sort has an `anything else` bucket), so it is modelled as
`String`. -/
structure UserShow where
  id : String
  user_id : String
  tvmaze_show_id : Int
  show_name : String
  show_poster : Option String
  show_backdrop : Option String
  status : String
  created_at : Int
deriving DecidableEq, Repr

/-- `EnrichedUserShow` (types/index.ts, as produced by enrich-shows.ts:
the three derived fields, with the tag as an option). -/
structure EnrichedUserShow where
  id : String
  user_id : String
  tvmaze_show_id : Int
  show_name : String
  show_poster : Option String
  show_backdrop : Option String
  status : String
  created_at : Int
  newSeasonTag : Option NewSeasonTag
  nextEpisodeAirDate : Option Int
  hasUpcomingEpisodesInCurrentSeason : Bool
deriving DecidableEq, Repr

/-- One row of the `watch_progress` select used by `enrichUserShows`
(`tvmaze_show_id, season`). -/
structure WatchRow where
  tvmaze_show_id : Int
  season : Int
deriving DecidableEq, Repr

/-- JavaScript `Map.set`: overwrite the binding when the key is present
(keeping insertion order), append it otherwise. -/
def mapSet {β : Type} : List (Int × β) → Int → β → List (Int × β)
  | [], k, v => [(k, v)]
  | p :: m, k, v => if p.1 = k then (k, v) :: m else p :: mapSet m k v

/-- JavaScript `Map.get`: the binding of the key, if any. -/
def mapGet {β : Type} : List (Int × β) → Int → Option β
  | [], _ => none
  | p :: m, k => if p.1 = k then some p.2 else mapGet m k

/-- `metaMap` construction: `metaResults.forEach((result, i) => { if
fulfilled-and-non-null then set(shows[i].tvmaze_show_id, value) })`. -/
def buildMetaMap (shows : List UserShow) (metaResults : List (Option ShowSeasonMeta)) :
    List (Int × ShowSeasonMeta) :=
  (List.zip shows metaResults).foldl
    (fun m p =>
      match p.2 with
      | some meta => mapSet m p.1.tvmaze_show_id meta
      | none => m)
    []

/-- `maxWatchedSeasonMap` construction: fold of the watch-progress rows
keeping, per show id, the largest `season` seen (missing key reads as 0). -/
def buildMaxWatchedSeasonMap (rows : List WatchRow) : List (Int × Int) :=
  rows.foldl
    (fun m row =>
      let current := (mapGet m row.tvmaze_show_id).getD 0
      if row.season > current then mapSet m row.tvmaze_show_id row.season else m)
    []

/-- The body of the `shows.map` in `enrichUserShows` (enrich-shows.ts):
tag computation for one show. -/
def enrichOne (now threeMonthsAgo threeMonthsLater : Int)
    (metaMap : List (Int × ShowSeasonMeta)) (maxWatchedSeasonMap : List (Int × Int))
    (s : UserShow) : EnrichedUserShow :=
  let fields : Option NewSeasonTag × Option Int × Bool :=
    match mapGet metaMap s.tvmaze_show_id with
    | none => (none, none, false)
    | some meta =>
      -- the `if (nextEpisode?.airDate)` block
      let afterNext : Option NewSeasonTag × Option Int × Bool :=
        match meta.nextEpisode with
        | some nextEp =>
          match nextEp.airDate with
          | some airDate =>
            let tag : Option NewSeasonTag :=
              match meta.lastEpisode with
              | some lastEp =>
                if lastEp.seasonNumber < nextEp.seasonNumber ∧
                    now < airDate ∧ airDate ≤ threeMonthsLater then
                  some NewSeasonTag.soon
                else none
              | none => none
            let upcoming : Bool :=
              match meta.lastEpisode with
              | some lastEp =>
                if nextEp.seasonNumber = lastEp.seasonNumber ∧ now < airDate then
                  true
                else false
              | none => false
            (tag, some airDate, upcoming)
          | none => (none, none, false)
        | none => (none, none, false)
      -- the `"New Season Out"` block
      let tag2 : Option NewSeasonTag :=
        if afterNext.1 = none then
          match meta.latestSeasonAirDate with
          | some premiereDate =>
            if 1 < meta.numberOfSeasons then
              let maxWatched := (mapGet maxWatchedSeasonMap s.tvmaze_show_id).getD 0
              if ¬ meta.numberOfSeasons ≤ maxWatched ∧
                  threeMonthsAgo ≤ premiereDate ∧ premiereDate ≤ now then
                some NewSeasonTag.out
              else afterNext.1
            else afterNext.1
          | none => afterNext.1
        else afterNext.1
      (tag2, afterNext.2.1, afterNext.2.2)
  { id := s.id, user_id := s.user_id, tvmaze_show_id := s.tvmaze_show_id,
    show_name := s.show_name, show_poster := s.show_poster,
    show_backdrop := s.show_backdrop, status := s.status,
    created_at := s.created_at, newSeasonTag := fields.1,
    nextEpisodeAirDate := fields.2.1,
    hasUpcomingEpisodesInCurrentSeason := fields.2.2 }

/-- The auto-move loop body of `enrichUserShows`: a `completed` show with
upcoming same-season episodes becomes `watching`. -/
def autoMoveShow (e : EnrichedUserShow) : EnrichedUserShow :=
  if e.status = "completed" ∧ e.hasUpcomingEpisodesInCurrentSeason then
    { e with status := "watching" }
  else e

/-- The ids pushed onto `autoMoveToWatching` by the auto-move loop. -/
def autoMovedIds (enriched : List EnrichedUserShow) : List String :=
  (enriched.filter
    (fun e => e.status == "completed" && e.hasUpcomingEpisodesInCurrentSeason)).map
    (fun e => e.id)

/-- `getSortPriority` (enrich-shows.ts). -/
def getSortPriority (s : EnrichedUserShow) : Int :=
  if s.status = "watching" then 0
  else if s.status = "plan_to_watch" then 1
  else if s.status = "on_hold" then 2
  else if s.status = "completed" then 3
  else if s.status = "dropped" then 4
  else 5

/-- `aMeta?.lastEpisode?.airDate ?? aMeta?.latestSeasonAirDate ?? null`:
the date used by the within-tier comparison. -/
def sortDate (metaMap : List (Int × ShowSeasonMeta)) (e : EnrichedUserShow) : Option Int :=
  match mapGet metaMap e.tvmaze_show_id with
  | none => none
  | some m =>
    match m.lastEpisode with
    | some lastEp =>
      match lastEp.airDate with
      | some d => some d
      | none => m.latestSeasonAirDate
    | none => m.latestSeasonAirDate

/-- The sort comparator of `enrichUserShows` (negative means `a` first). -/
def compareShows (metaMap : List (Int × ShowSeasonMeta)) (a b : EnrichedUserShow) : Int :=
  let pa := getSortPriority a
  let pb := getSortPriority b
  if pa ≠ pb then pa - pb
  else
    match sortDate metaMap a, sortDate metaMap b with
    | some aDate, some bDate => bDate - aDate
    | some _, none => -1
    | none, some _ => 1
    | none, none => b.created_at - a.created_at

/-- `enriched.sort(comparator)`: a stable sort by the comparator. -/
def sortShows (metaMap : List (Int × ShowSeasonMeta)) (l : List EnrichedUserShow) :
    List EnrichedUserShow :=
  l.mergeSort (fun a b => decide (compareShows metaMap a b ≤ 0))

/-- Observable outcome of one `enrichUserShows` call: the returned list,
the show ids passed to the metadata fetchers, whether the watch-progress
query was issued, and the status-update commands dispatched. -/
structure EnrichResult where
  result : List EnrichedUserShow
  fetchedShowIds : List Int
  watchProgressQueried : Bool
  statusUpdateCommands : List (String × List String)
deriving DecidableEq, Repr

/-- `enrichUserShows` (enrich-shows.ts).  `metaResults` are the per-index
`Promise.allSettled` outcomes (`none` = rejected or resolved `null`);
`watchData` is the `data` field of the watch-progress query. -/
def enrichUserShows (now threeMonthsAgo threeMonthsLater : Int)
    (metaResults : List (Option ShowSeasonMeta)) (watchData : Option (List WatchRow))
    (shows : List UserShow) : EnrichResult :=
  if shows.length = 0 then
    { result := [], fetchedShowIds := [], watchProgressQueried := false,
      statusUpdateCommands := [] }
  else
    let showIds := shows.map (fun s => s.tvmaze_show_id)
    let metaMap := buildMetaMap shows metaResults
    let maxWatchedSeasonMap :=
      match watchData with
      | some rows => buildMaxWatchedSeasonMap rows
      | none => []
    let enriched :=
      shows.map (enrichOne now threeMonthsAgo threeMonthsLater metaMap maxWatchedSeasonMap)
    let moved := enriched.map autoMoveShow
    let movedIds := autoMovedIds enriched
    { result := sortShows metaMap moved,
      fetchedShowIds := showIds,
      watchProgressQueried := true,
      statusUpdateCommands :=
        if 0 < movedIds.length then [("watching", movedIds)] else [] }

/-! ## The older inline enrichment of `MyShowsPage` (my-shows/page.tsx) -/

/-- `EnrichedUserShow` as the My Shows page still builds it: a boolean
`newSeasonComingSoon` flag instead of the tag. -/
structure MyShowsEnrichedUserShow where
  id : String
  user_id : String
  tvmaze_show_id : Int
  show_name : String
  show_poster : Option String
  show_backdrop : Option String
  status : String
  created_at : Int
  newSeasonComingSoon : Bool
  nextEpisodeAirDate : Option Int
  hasUpcomingEpisodesInCurrentSeason : Bool
deriving DecidableEq, Repr

/-- The body of the `shows.map` in `MyShowsPage` (my-shows/page.tsx). -/
def myShowsEnrichOne (now threeMonthsLater : Int)
    (metaMap : List (Int × ShowSeasonMeta)) (s : UserShow) : MyShowsEnrichedUserShow :=
  let fields : Bool × Option Int × Bool :=
    match mapGet metaMap s.tvmaze_show_id with
    | none => (false, none, false)
    | some meta =>
      match meta.nextEpisode with
      | some nextEp =>
        match nextEp.airDate with
        | some airDate =>
          let soon : Bool :=
            match meta.lastEpisode with
            | some lastEp =>
              if lastEp.seasonNumber < nextEp.seasonNumber ∧
                  now < airDate ∧ airDate ≤ threeMonthsLater then true
              else false
            | none => false
          let upcoming : Bool :=
            match meta.lastEpisode with
            | some lastEp =>
              if nextEp.seasonNumber = lastEp.seasonNumber ∧ now < airDate then true
              else false
            | none => false
          (soon, some airDate, upcoming)
        | none => (false, none, false)
      | none => (false, none, false)
  { id := s.id, user_id := s.user_id, tvmaze_show_id := s.tvmaze_show_id,
    show_name := s.show_name, show_poster := s.show_poster,
    show_backdrop := s.show_backdrop, status := s.status,
    created_at := s.created_at, newSeasonComingSoon := fields.1,
    nextEpisodeAirDate := fields.2.1,
    hasUpcomingEpisodesInCurrentSeason := fields.2.2 }

/-- The auto-move loop body of `MyShowsPage`: `completed` with upcoming
same-season episodes becomes `watching`, otherwise `completed` with the
new-season-coming-soon flag becomes `plan_to_watch`. -/
def myShowsAutoMove (e : MyShowsEnrichedUserShow) : MyShowsEnrichedUserShow :=
  if e.status = "completed" then
    if e.hasUpcomingEpisodesInCurrentSeason then { e with status := "watching" }
    else if e.newSeasonComingSoon then { e with status := "plan_to_watch" }
    else e
  else e

/-- Ids pushed onto `autoMoveToWatching` by the My Shows page loop. -/
def myShowsWatchingIds (l : List MyShowsEnrichedUserShow) : List String :=
  (l.filter
    (fun e => e.status == "completed" && e.hasUpcomingEpisodesInCurrentSeason)).map
    (fun e => e.id)

/-- Ids pushed onto `autoMoveToPlanToWatch` by the My Shows page loop. -/
def myShowsPlanToWatchIds (l : List MyShowsEnrichedUserShow) : List String :=
  (l.filter
    (fun e => e.status == "completed" && !e.hasUpcomingEpisodesInCurrentSeason &&
      e.newSeasonComingSoon)).map
    (fun e => e.id)

/-- `getSortPriority` of my-shows/page.tsx (same tiers). -/
def myShowsSortPriority (s : MyShowsEnrichedUserShow) : Int :=
  if s.status = "watching" then 0
  else if s.status = "plan_to_watch" then 1
  else if s.status = "on_hold" then 2
  else if s.status = "completed" then 3
  else if s.status = "dropped" then 4
  else 5

/-- The My Shows page comparator: tier, then `created_at` descending. -/
def myShowsCompare (a b : MyShowsEnrichedUserShow) : Int :=
  let pa := myShowsSortPriority a
  let pb := myShowsSortPriority b
  if pa ≠ pb then pa - pb
  else b.created_at - a.created_at

/-- Enrichment pipeline of `MyShowsPage` after the shows are loaded:
enrich, auto-move (two directions), dispatch update commands, sort. -/
def myShowsPageEnrich (now threeMonthsLater : Int)
    (metaResults : List (Option ShowSeasonMeta)) (shows : List UserShow) :
    List MyShowsEnrichedUserShow × List (String × List String) :=
  let metaMap := buildMetaMap shows metaResults
  let enriched := shows.map (myShowsEnrichOne now threeMonthsLater metaMap)
  let moved := enriched.map myShowsAutoMove
  let watchingIds := myShowsWatchingIds enriched
  let planIds := myShowsPlanToWatchIds enriched
  let updates :=
    (if 0 < watchingIds.length then [("watching", watchingIds)] else []) ++
      (if 0 < planIds.length then [("plan_to_watch", planIds)] else [])
  (moved.mergeSort (fun a b => decide (myShowsCompare a b ≤ 0)), updates)

/-! ## `getShowSeasonMeta`: the latest-season premiere date (tmdb.ts) -/

/-- One entry of the raw TMDB `seasons` array (`season_number`,
`air_date`). -/
structure TMDBSeasonRaw where
  season_number : Int
  air_date : Option String
deriving DecidableEq, Repr

/-- JavaScript truthiness of the `air_date` field (`null` and `""` are
falsy). -/
def airDateTruthy : Option String → Bool
  | none => false
  | some s => s != ""

/-- The `latestSeasonAirDate` computation of `getShowSeasonMeta`: filter
out specials (season 0) and undated seasons, sort descending by
`season_number`, take the first entry's `air_date`. -/
def computeLatestSeasonAirDate (seasons : List TMDBSeasonRaw) : Option String :=
  if 0 < seasons.length then
    let regularSeasons :=
      (seasons.filter (fun s => 0 < s.season_number && airDateTruthy s.air_date)).mergeSort
        (fun a b => decide (b.season_number ≤ a.season_number))
    match regularSeasons with
    | s :: _ => s.air_date
    | [] => none
  else none

/-- Modelled from the claim's words, for comparison with
`computeLatestSeasonAirDate`: the air date of the highest-numbered
regular (non-specials) season, regardless of whether that season has an
air date. -/
def claimedLatestSeasonPremiereDate (seasons : List TMDBSeasonRaw) : Option String :=
  match (seasons.filter (fun s => 0 < s.season_number)).mergeSort
      (fun a b => decide (b.season_number ≤ a.season_number)) with
  | s :: _ => s.air_date
  | [] => none

/-! ## Watch-progress mutation helpers (tmdb/watch-progress layer)

The `watch_progress` table for a fixed user, keyed by the composite
unique key `(tvmaze_show_id, season, episode)`, is modelled as a finite
set of keys: the upsert of `markEpisodeWatched` is `insert`, the delete
of `unmarkEpisodeWatched` is `erase`. -/

/-- A watch-mark key: `(tvmaze_show_id, season, episode)`. -/
abbrev WatchKey := Int × Int × Int

/-- `markEpisodeWatched`: idempotent upsert on the composite unique key. -/
def markEpisodeWatched (st : Finset WatchKey) (showId season episode : Int) :
    Finset WatchKey :=
  insert (showId, season, episode) st

/-- `unmarkEpisodeWatched`: delete by the composite key (no-op when the
row does not exist). -/
def unmarkEpisodeWatched (st : Finset WatchKey) (showId season episode : Int) :
    Finset WatchKey :=
  st.erase (showId, season, episode)

/-! ## Spec-side conditions (phrased from the specification's wording) -/

/-- Spec condition for the `"soon"` tag: the next episode exists, is in a
strictly higher season than the last aired episode, and airs in the
open-closed window `(now, threeMonthsLater]`. -/
def soonCondition (now threeMonthsLater : Int) (meta : ShowSeasonMeta) : Prop :=
  ∃ nextEp lastEp d, meta.nextEpisode = some nextEp ∧ meta.lastEpisode = some lastEp ∧
    nextEp.airDate = some d ∧ lastEp.seasonNumber < nextEp.seasonNumber ∧
    now < d ∧ d ≤ threeMonthsLater

/-- Spec condition for `hasUpcomingEpisodesInCurrentSeason`: the next
episode exists, airs strictly after `now`, the last episode exists, and
both are in the same season. -/
def upcomingCondition (now : Int) (meta : ShowSeasonMeta) : Prop :=
  ∃ nextEp lastEp d, meta.nextEpisode = some nextEp ∧ meta.lastEpisode = some lastEp ∧
    nextEp.airDate = some d ∧ now < d ∧ nextEp.seasonNumber = lastEp.seasonNumber

/-- The maximum season number among the user's watch marks for one show
(0 when there are none), as the spec describes it. -/
def maxWatchedSeason (rows : List WatchRow) (sid : Int) : Int :=
  rows.foldl (fun acc r => if r.tvmaze_show_id = sid then max acc r.season else acc) 0

/-- Spec condition for the `"out"` tag, given the maximum watched season:
the latest-season premiere date exists, there is more than one season, the
user has not watched into the latest season, and the premiere lies in the
closed window `[threeMonthsAgo, now]`. -/
def outCondition (now threeMonthsAgo : Int) (meta : ShowSeasonMeta) (maxWatched : Int) :
    Prop :=
  ∃ premiere, meta.latestSeasonAirDate = some premiere ∧ 1 < meta.numberOfSeasons ∧
    maxWatched < meta.numberOfSeasons ∧ threeMonthsAgo ≤ premiere ∧ premiere ≤ now

/-! ## Association-list (JavaScript `Map`) lemmas -/

/-- Reading back the key just written. -/
theorem mapGet_mapSet_self {β : Type} (m : List (Int × β)) (k : Int) (v : β) :
    mapGet (mapSet m k v) k = some v := by
  induction m with
  | nil => simp [mapSet, mapGet]
  | cons p m ih =>
    by_cases hp : p.1 = k
    · simp [mapSet, mapGet, hp]
    · simp [mapSet, mapGet, hp, ih]

/-- Writing one key leaves the others unchanged. -/
theorem mapGet_mapSet_ne {β : Type} (m : List (Int × β)) (k k' : Int) (v : β)
    (hk : k ≠ k') : mapGet (mapSet m k' v) k = mapGet m k := by
  have hk' : ¬ (k' : Int) = k := fun h => hk h.symm
  induction m with
  | nil => simp [mapSet, mapGet, hk']
  | cons p m ih =>
    by_cases hp : p.1 = k'
    · simp [mapSet, mapGet, hp, hk']
    · by_cases hpk : p.1 = k
      · simp [mapSet, mapGet, hp, hpk, hk, hk']
      · simp [mapSet, mapGet, hp, hpk, ih]

/-- The fold that builds `maxWatchedSeasonMap` computes, per show id, the
maximum season among that show's watch-progress rows (0 default). -/
theorem mapGet_buildMaxWatchedSeasonMap (rows : List WatchRow) (sid : Int) :
    (mapGet (buildMaxWatchedSeasonMap rows) sid).getD 0 = maxWatchedSeason rows sid := by
  suffices h : ∀ (m : List (Int × Int)),
      (mapGet (rows.foldl
        (fun m row =>
          let current := (mapGet m row.tvmaze_show_id).getD 0
          if row.season > current then mapSet m row.tvmaze_show_id row.season else m)
        m) sid).getD 0 =
      rows.foldl (fun acc r => if r.tvmaze_show_id = sid then max acc r.season else acc)
        ((mapGet m sid).getD 0) by
    exact h []
  induction rows with
  | nil => intro m; rfl
  | cons r rows ih =>
    intro m
    simp only [List.foldl_cons]
    rw [ih]
    congr 1
    by_cases hr : r.tvmaze_show_id = sid
    · subst hr
      rw [if_pos rfl]
      by_cases hs : r.season > (mapGet m r.tvmaze_show_id).getD 0
      · rw [if_pos hs, mapGet_mapSet_self]
        simp only [Option.getD_some]
        omega
      · rw [if_neg hs]
        omega
    · rw [if_neg hr]
      by_cases hs : r.season > (mapGet m r.tvmaze_show_id).getD 0
      · rw [if_pos hs, mapGet_mapSet_ne m sid r.tvmaze_show_id r.season
          (fun h => hr h.symm)]
      · rw [if_neg hs]

/-! ## Characterisation of `enrichOne` -/

/-- Boolean mirror of the `"soon"` branch of `enrichOne`. -/
def soonFlag (now threeMonthsLater : Int) (meta : ShowSeasonMeta) : Bool :=
  match meta.nextEpisode with
  | some nextEp =>
    match nextEp.airDate with
    | some airDate =>
      match meta.lastEpisode with
      | some lastEp =>
        if lastEp.seasonNumber < nextEp.seasonNumber ∧
            now < airDate ∧ airDate ≤ threeMonthsLater then true
        else false
      | none => false
    | none => false
  | none => false

/-- Boolean mirror of the same-season-upcoming branch of `enrichOne`. -/
def upcomingFlag (now : Int) (meta : ShowSeasonMeta) : Bool :=
  match meta.nextEpisode with
  | some nextEp =>
    match nextEp.airDate with
    | some airDate =>
      match meta.lastEpisode with
      | some lastEp =>
        if nextEp.seasonNumber = lastEp.seasonNumber ∧ now < airDate then true
        else false
      | none => false
    | none => false
  | none => false

/-- Boolean mirror of the `"out"` branch of `enrichOne`. -/
def outFlag (now threeMonthsAgo : Int) (meta : ShowSeasonMeta) (maxWatched : Int) : Bool :=
  match meta.latestSeasonAirDate with
  | some premiereDate =>
    if 1 < meta.numberOfSeasons then
      if ¬ meta.numberOfSeasons ≤ maxWatched ∧
          threeMonthsAgo ≤ premiereDate ∧ premiereDate ≤ now then true
      else false
    else false
  | none => false

/-- The `nextEpisodeAirDate` field: `nextEpisode?.airDate ?? null`. -/
def nextAirDate (meta : ShowSeasonMeta) : Option Int :=
  match meta.nextEpisode with
  | some nextEp => nextEp.airDate
  | none => none

/-- `enrichOne` computed in closed form when metadata is available. -/
theorem enrichOne_eq (now threeMonthsAgo threeMonthsLater : Int)
    (mm : List (Int × ShowSeasonMeta)) (mw : List (Int × Int)) (s : UserShow)
    (meta : ShowSeasonMeta) (h : mapGet mm s.tvmaze_show_id = some meta) :
    enrichOne now threeMonthsAgo threeMonthsLater mm mw s =
      { id := s.id, user_id := s.user_id, tvmaze_show_id := s.tvmaze_show_id,
        show_name := s.show_name, show_poster := s.show_poster,
        show_backdrop := s.show_backdrop, status := s.status,
        created_at := s.created_at,
        newSeasonTag :=
          if soonFlag now threeMonthsLater meta then some NewSeasonTag.soon
          else if outFlag now threeMonthsAgo meta ((mapGet mw s.tvmaze_show_id).getD 0)
          then some NewSeasonTag.out
          else none,
        nextEpisodeAirDate := nextAirDate meta,
        hasUpcomingEpisodesInCurrentSeason := upcomingFlag now meta } := by
  obtain ⟨tid, nextE, lastE, ns, lsad, run⟩ := meta
  unfold enrichOne soonFlag outFlag upcomingFlag nextAirDate
  rw [h]
  rcases nextE with _ | nextEp <;>
    rcases lastE with _ | lastEp <;>
    rcases lsad with _ | premiereDate <;>
    first
      | (rcases hna : nextEp.airDate with _ | airDate <;>
          simp only [hna] <;> split_ifs <;> simp_all)
      | (split_ifs <;> simp_all)

/-- `enrichOne` when no metadata is available. -/
theorem enrichOne_eq_no_meta (now threeMonthsAgo threeMonthsLater : Int)
    (mm : List (Int × ShowSeasonMeta)) (mw : List (Int × Int)) (s : UserShow)
    (h : mapGet mm s.tvmaze_show_id = none) :
    enrichOne now threeMonthsAgo threeMonthsLater mm mw s =
      { id := s.id, user_id := s.user_id, tvmaze_show_id := s.tvmaze_show_id,
        show_name := s.show_name, show_poster := s.show_poster,
        show_backdrop := s.show_backdrop, status := s.status,
        created_at := s.created_at, newSeasonTag := none,
        nextEpisodeAirDate := none,
        hasUpcomingEpisodesInCurrentSeason := false } := by
  unfold enrichOne
  rw [h]

/-- `soonFlag` decides the spec's `"soon"` condition. -/
theorem soonFlag_iff (now threeMonthsLater : Int) (meta : ShowSeasonMeta) :
    soonFlag now threeMonthsLater meta = true ↔ soonCondition now threeMonthsLater meta := by
  obtain ⟨tid, nextE, lastE, ns, lsad, run⟩ := meta
  unfold soonFlag soonCondition
  rcases nextE with _ | nextEp
  · simp
  · rcases hna : nextEp.airDate with _ | airDate <;>
      rcases lastE with _ | lastEp <;>
      simp [hna]

/-- `upcomingFlag` decides the spec's upcoming-episodes condition. -/
theorem upcomingFlag_iff (now : Int) (meta : ShowSeasonMeta) :
    upcomingFlag now meta = true ↔ upcomingCondition now meta := by
  obtain ⟨tid, nextE, lastE, ns, lsad, run⟩ := meta
  unfold upcomingFlag upcomingCondition
  rcases nextE with _ | nextEp
  · simp
  · rcases hna : nextEp.airDate with _ | airDate <;>
      rcases lastE with _ | lastEp <;>
      simp [hna, and_comm]

/-- `outFlag` decides the spec's `"out"` condition. -/
theorem outFlag_iff (now threeMonthsAgo : Int) (meta : ShowSeasonMeta) (maxWatched : Int) :
    outFlag now threeMonthsAgo meta maxWatched = true ↔
      outCondition now threeMonthsAgo meta maxWatched := by
  obtain ⟨tid, nextE, lastE, ns, lsad, run⟩ := meta
  unfold outFlag outCondition
  rcases lsad with _ | premiereDate <;> simp

/-- Computation lemma for the My Shows page enrichment when metadata is
available. -/
theorem myShowsEnrichOne_eq (now threeMonthsLater : Int)
    (mm : List (Int × ShowSeasonMeta)) (s : UserShow) (meta : ShowSeasonMeta)
    (h : mapGet mm s.tvmaze_show_id = some meta) :
    myShowsEnrichOne now threeMonthsLater mm s =
      { id := s.id, user_id := s.user_id, tvmaze_show_id := s.tvmaze_show_id,
        show_name := s.show_name, show_poster := s.show_poster,
        show_backdrop := s.show_backdrop, status := s.status,
        created_at := s.created_at,
        newSeasonComingSoon := soonFlag now threeMonthsLater meta,
        nextEpisodeAirDate := nextAirDate meta,
        hasUpcomingEpisodesInCurrentSeason := upcomingFlag now meta } := by
  obtain ⟨tid, nextE, lastE, ns, lsad, run⟩ := meta
  unfold myShowsEnrichOne soonFlag upcomingFlag nextAirDate
  rw [h]
  rcases nextE with _ | nextEp
  · rfl
  · rcases hna : nextEp.airDate with _ | airDate
    · rcases lastE with _ | lastEp <;> simp [hna]
    · rcases lastE with _ | lastEp
      · simp [hna]
      · simp only [hna]

/-! ## Concrete fixtures used by witnesses and counterexamples -/

/-- A show the user marked `completed`. -/
def sampleShowCompleted : UserShow :=
  { id := "show-1", user_id := "user-1", tvmaze_show_id := 100, show_name := "Sample",
    show_poster := none, show_backdrop := none, status := "completed", created_at := 50 }

/-- Metadata whose next episode opens a new season within the window
(`"soon"`), with no upcoming same-season episode. -/
def sampleMetaSoon : ShowSeasonMeta :=
  { tmdbId := 102, nextEpisode := some ⟨4, 1, some 10⟩,
    lastEpisode := some ⟨3, 8, some (-5)⟩, numberOfSeasons := 4,
    latestSeasonAirDate := none, isRunning := true }

/-- Metadata with an upcoming episode in the current season. -/
def sampleMetaUpcoming : ShowSeasonMeta :=
  { tmdbId := 101, nextEpisode := some ⟨2, 11, some 5⟩,
    lastEpisode := some ⟨2, 10, some (-10)⟩, numberOfSeasons := 2,
    latestSeasonAirDate := some (-100), isRunning := true }

/-- Metadata whose latest season premiered recently (`"out"`). -/
def sampleMetaOut : ShowSeasonMeta :=
  { tmdbId := 103, nextEpisode := none, lastEpisode := some ⟨3, 8, some (-20)⟩,
    numberOfSeasons := 3, latestSeasonAirDate := some (-20), isRunning := true }

/-! ## Claims -/

/-- C7: for the empty input list, `enrichUserShows` returns the empty list
immediately and performs no metadata fetch, no watch-progress query and no
status-update command. -/
theorem c7_empty_input_short_circuit (now threeMonthsAgo threeMonthsLater : Int)
    (metaResults : List (Option ShowSeasonMeta)) (watchData : Option (List WatchRow)) :
    enrichUserShows now threeMonthsAgo threeMonthsLater metaResults watchData [] =
      { result := [], fetchedShowIds := [], watchProgressQueried := false,
        statusUpdateCommands := [] } := rfl

/-- C2: for every show with available `SeasonMeta`, the `"soon"` tag (and
equally the `newSeasonComingSoon` flag of the My Shows page) is set iff
the next episode exists, its season number is strictly greater than the
last episode's, and its air date lies in the open-closed window
`(now, threeMonthsLater]`. -/
theorem c2_soon_tag_iff (now threeMonthsAgo threeMonthsLater : Int)
    (metaMap : List (Int × ShowSeasonMeta)) (maxWatchedSeasonMap : List (Int × Int))
    (s : UserShow) (meta : ShowSeasonMeta)
    (h : mapGet metaMap s.tvmaze_show_id = some meta) :
    ((enrichOne now threeMonthsAgo threeMonthsLater metaMap maxWatchedSeasonMap
        s).newSeasonTag = some NewSeasonTag.soon ↔
      soonCondition now threeMonthsLater meta) ∧
    ((myShowsEnrichOne now threeMonthsLater metaMap s).newSeasonComingSoon = true ↔
      soonCondition now threeMonthsLater meta) := by
  rw [enrichOne_eq now threeMonthsAgo threeMonthsLater metaMap maxWatchedSeasonMap s meta h,
    myShowsEnrichOne_eq now threeMonthsLater metaMap s meta h]
  rw [← soonFlag_iff now threeMonthsLater meta]
  cases hsf : soonFlag now threeMonthsLater meta
  · cases hof : outFlag now threeMonthsAgo meta
        ((mapGet maxWatchedSeasonMap s.tvmaze_show_id).getD 0) <;>
      simp [hsf, hof]
  · simp [hsf]

/-- C4: for every show with available `SeasonMeta`,
`hasUpcomingEpisodesInCurrentSeason` (in both implementations) is true iff
the next episode exists, airs strictly after `now`, the last episode
exists, and both are in the same season. -/
theorem c4_upcoming_iff (now threeMonthsAgo threeMonthsLater : Int)
    (metaMap : List (Int × ShowSeasonMeta)) (maxWatchedSeasonMap : List (Int × Int))
    (s : UserShow) (meta : ShowSeasonMeta)
    (h : mapGet metaMap s.tvmaze_show_id = some meta) :
    ((enrichOne now threeMonthsAgo threeMonthsLater metaMap maxWatchedSeasonMap
        s).hasUpcomingEpisodesInCurrentSeason = true ↔
      upcomingCondition now meta) ∧
    ((myShowsEnrichOne now threeMonthsLater metaMap s).hasUpcomingEpisodesInCurrentSeason
        = true ↔ upcomingCondition now meta) := by
  rw [enrichOne_eq now threeMonthsAgo threeMonthsLater metaMap maxWatchedSeasonMap s meta h,
    myShowsEnrichOne_eq now threeMonthsLater metaMap s meta h]
  exact ⟨upcomingFlag_iff now meta, upcomingFlag_iff now meta⟩

/-- C3: for every show with available `SeasonMeta`, the `"out"` tag is set
iff the `"soon"` condition did not fire, `latestSeasonPremiereDate`
exists, `numberOfSeasons > 1`, the maximum watched season (from the
watch-progress rows) is strictly below `numberOfSeasons`, and the premiere
lies in the closed window `[threeMonthsAgo, now]`; the two tags are never
set simultaneously, and max watched season ≥ `numberOfSeasons` suppresses
the `"out"` tag. -/
theorem c3_out_tag_iff (now threeMonthsAgo threeMonthsLater : Int)
    (metaMap : List (Int × ShowSeasonMeta)) (rows : List WatchRow)
    (s : UserShow) (meta : ShowSeasonMeta)
    (h : mapGet metaMap s.tvmaze_show_id = some meta) :
    ((enrichOne now threeMonthsAgo threeMonthsLater metaMap
        (buildMaxWatchedSeasonMap rows) s).newSeasonTag = some NewSeasonTag.out ↔
      ¬ soonCondition now threeMonthsLater meta ∧
        outCondition now threeMonthsAgo meta (maxWatchedSeason rows s.tvmaze_show_id)) ∧
    ¬ ((enrichOne now threeMonthsAgo threeMonthsLater metaMap
        (buildMaxWatchedSeasonMap rows) s).newSeasonTag = some NewSeasonTag.soon ∧
      (enrichOne now threeMonthsAgo threeMonthsLater metaMap
        (buildMaxWatchedSeasonMap rows) s).newSeasonTag = some NewSeasonTag.out) ∧
    (meta.numberOfSeasons ≤ maxWatchedSeason rows s.tvmaze_show_id →
      (enrichOne now threeMonthsAgo threeMonthsLater metaMap
        (buildMaxWatchedSeasonMap rows) s).newSeasonTag ≠ some NewSeasonTag.out) := by
  rw [enrichOne_eq now threeMonthsAgo threeMonthsLater metaMap
    (buildMaxWatchedSeasonMap rows) s meta h]
  simp only [mapGet_buildMaxWatchedSeasonMap rows s.tvmaze_show_id]
  rw [← soonFlag_iff now threeMonthsLater meta,
    ← outFlag_iff now threeMonthsAgo meta (maxWatchedSeason rows s.tvmaze_show_id)]
  refine ⟨?_, ?_, ?_⟩
  · cases hsf : soonFlag now threeMonthsLater meta <;>
      cases hof : outFlag now threeMonthsAgo meta
        (maxWatchedSeason rows s.tvmaze_show_id) <;>
      simp [hsf, hof]
  · cases hsf : soonFlag now threeMonthsLater meta <;>
      cases hof : outFlag now threeMonthsAgo meta
        (maxWatchedSeason rows s.tvmaze_show_id) <;>
      simp [hsf, hof]
  · intro hmax
    have hof : outFlag now threeMonthsAgo meta
        (maxWatchedSeason rows s.tvmaze_show_id) = false := by
      cases hof : outFlag now threeMonthsAgo meta
          (maxWatchedSeason rows s.tvmaze_show_id)
      · rfl
      · exfalso
        obtain ⟨premiere, -, -, hlt, -, -⟩ :=
          (outFlag_iff now threeMonthsAgo meta
            (maxWatchedSeason rows s.tvmaze_show_id)).mp hof
        omega
    cases hsf : soonFlag now threeMonthsLater meta <;> simp [hsf, hof]

/-- Witness for C2 at a concrete input. -/
theorem c2_soon_tag_iff_witness :
    (enrichOne 0 (-90) 90 [(100, sampleMetaSoon)] [] sampleShowCompleted).newSeasonTag =
      some NewSeasonTag.soon :=
  (c2_soon_tag_iff 0 (-90) 90 [(100, sampleMetaSoon)] [] sampleShowCompleted
      sampleMetaSoon rfl).1.mpr
    ⟨⟨4, 1, some 10⟩, ⟨3, 8, some (-5)⟩, 10, rfl, rfl, rfl, by decide, by decide, by decide⟩

/-- Witness for C4 at a concrete input. -/
theorem c4_upcoming_iff_witness :
    (enrichOne 0 (-90) 90 [(100, sampleMetaUpcoming)] []
        sampleShowCompleted).hasUpcomingEpisodesInCurrentSeason = true :=
  (c4_upcoming_iff 0 (-90) 90 [(100, sampleMetaUpcoming)] [] sampleShowCompleted
      sampleMetaUpcoming rfl).1.mpr
    ⟨⟨2, 11, some 5⟩, ⟨2, 10, some (-10)⟩, 5, rfl, rfl, rfl, by decide, rfl⟩

/-- Witness for C3 at a concrete input. -/
theorem c3_out_tag_iff_witness :
    (enrichOne 0 (-90) 90 [(100, sampleMetaOut)]
        (buildMaxWatchedSeasonMap [⟨100, 2⟩]) sampleShowCompleted).newSeasonTag =
      some NewSeasonTag.out :=
  (c3_out_tag_iff 0 (-90) 90 [(100, sampleMetaOut)] [⟨100, 2⟩] sampleShowCompleted
      sampleMetaOut rfl).1.mpr
    ⟨by simp [soonCondition, sampleMetaOut],
      ⟨-20, rfl, by decide, by decide, by decide, by decide⟩⟩

/-- C1: the claim states that a show's status changes only when its input
status is `completed` and `hasUpcomingEpisodesInCurrentSeason` holds, and
that new-season tags never by themselves change a status.  The shared
`enrichUserShows` engine satisfies this, but the inline copy in
`MyShowsPage` does not: at this concrete input (a `completed` show whose
metadata sets the new-season-coming-soon flag while
`hasUpcomingEpisodesInCurrentSeason` is false) the page moves the status
to `plan_to_watch` and issues an update command, while `enrichUserShows`
on the same input leaves the status `completed` and issues none. -/
theorem c1_my_shows_moves_status_on_soon_tag :
    ((myShowsPageEnrich 0 90 [some sampleMetaSoon] [sampleShowCompleted]).1.map
        (fun e => e.status) = ["plan_to_watch"]) ∧
    ((myShowsPageEnrich 0 90 [some sampleMetaSoon] [sampleShowCompleted]).1.map
        (fun e => e.hasUpcomingEpisodesInCurrentSeason) = [false]) ∧
    ((myShowsPageEnrich 0 90 [some sampleMetaSoon] [sampleShowCompleted]).2 =
      [("plan_to_watch", ["show-1"])]) ∧
    ((enrichUserShows 0 (-90) 90 [some sampleMetaSoon] (some [])
        [sampleShowCompleted]).result.map (fun e => e.status) = ["completed"]) ∧
    ((enrichUserShows 0 (-90) 90 [some sampleMetaSoon] (some [])
        [sampleShowCompleted]).statusUpdateCommands = []) := by
  refine ⟨?_, ?_, ?_, ?_, ?_⟩ <;>
    simp [myShowsPageEnrich, enrichUserShows, buildMetaMap, buildMaxWatchedSeasonMap,
      mapSet, mapGet, myShowsEnrichOne, myShowsAutoMove, myShowsWatchingIds,
      myShowsPlanToWatchIds, enrichOne, autoMoveShow, autoMovedIds, sortShows,
      sampleShowCompleted, sampleMetaSoon, List.mergeSort_singleton]

/-- Sorting a two-element list. -/
theorem mergeSort_pair {α : Type} (le : α → α → Bool) (a b : α) :
    List.mergeSort [a, b] le = if le a b then [a, b] else [b, a] := by
  rw [List.mergeSort]
  simp [List.splitInTwo, List.splitAt, List.splitAt.go, List.merge]

/-- C8 counterexample: when the episode is already marked, marking it again
(an upsert, hence a no-op) and then unmarking it deletes the pre-existing
mark, so the watch-mark set does not return to its prior state. -/
theorem c8_roundtrip_counterexample :
    unmarkEpisodeWatched
        (markEpisodeWatched {((5 : Int), (1 : Int), (2 : Int))} 5 1 2) 5 1 2 ≠
      ({((5 : Int), (1 : Int), (2 : Int))} : Finset WatchKey) := by
  decide

/-- C8 (amended): marking an episode watched and then unmarking it returns
the watch-mark set to its prior state exactly when the episode was not
already marked; in general the round trip yields the prior state with that
episode's mark removed. -/
theorem c8_roundtrip_restores_prior_state (st : Finset WatchKey)
    (showId season episode : Int) (h : (showId, season, episode) ∉ st) :
    unmarkEpisodeWatched (markEpisodeWatched st showId season episode)
        showId season episode = st := by
  unfold markEpisodeWatched unmarkEpisodeWatched
  rw [Finset.erase_insert h]

/-- Witness for C8 at a concrete input. -/
theorem c8_roundtrip_restores_prior_state_witness :
    unmarkEpisodeWatched (markEpisodeWatched ∅ 5 1 2) 5 1 2 = (∅ : Finset WatchKey) :=
  c8_roundtrip_restores_prior_state ∅ 5 1 2 (by decide)

/-- C9 counterexample: with seasons `[season 1 dated, season 2 undated]`,
`getShowSeasonMeta` returns season 1's air date, not the air date of the
highest-numbered regular season (season 2, which has none). -/
theorem c9_latest_season_counterexample :
    computeLatestSeasonAirDate [⟨1, some "2020-01-01"⟩, ⟨2, none⟩] =
        some "2020-01-01" ∧
    claimedLatestSeasonPremiereDate [⟨1, some "2020-01-01"⟩, ⟨2, none⟩] = none ∧
    computeLatestSeasonAirDate [⟨1, some "2020-01-01"⟩, ⟨2, none⟩] ≠
      claimedLatestSeasonPremiereDate [⟨1, some "2020-01-01"⟩, ⟨2, none⟩] := by
  refine ⟨?_, ?_, ?_⟩ <;>
    simp [computeLatestSeasonAirDate, claimedLatestSeasonPremiereDate, airDateTruthy,
      mergeSort_pair, List.mergeSort_singleton]

/-- C9 (amended): `latestSeasonAirDate` is the air date of a regular season
that has a (non-null, non-empty) air date and whose season number is
maximal among such seasons; it is `none` iff no regular season has an air
date. -/
theorem c9_latest_season_amended (seasons : List TMDBSeasonRaw) :
    (computeLatestSeasonAirDate seasons = none ↔
      seasons.filter (fun s => 0 < s.season_number && airDateTruthy s.air_date) = []) ∧
    (∀ d, computeLatestSeasonAirDate seasons = some d →
      ∃ s ∈ seasons.filter (fun s => 0 < s.season_number && airDateTruthy s.air_date),
        s.air_date = some d ∧
          ∀ t ∈ seasons.filter (fun s => 0 < s.season_number && airDateTruthy s.air_date),
            t.season_number ≤ s.season_number) := by
  rcases hseasons : seasons with _ | ⟨s0, srest⟩
  · simp [computeLatestSeasonAirDate]
  · rw [← hseasons]
    have hlen : 0 < seasons.length := by rw [hseasons]; simp
    have hcompute : computeLatestSeasonAirDate seasons =
        match (seasons.filter
            (fun s => 0 < s.season_number && airDateTruthy s.air_date)).mergeSort
            (fun a b => decide (b.season_number ≤ a.season_number)) with
        | s :: _ => s.air_date
        | [] => none := by
      unfold computeLatestSeasonAirDate
      rw [if_pos hlen]
    have htrans : ∀ (a b c : TMDBSeasonRaw),
        decide (b.season_number ≤ a.season_number) →
        decide (c.season_number ≤ b.season_number) →
        decide (c.season_number ≤ a.season_number) := by
      intro a b c hab hbc
      simp only [decide_eq_true_eq] at hab hbc ⊢
      omega
    have htotal : ∀ (a b : TMDBSeasonRaw),
        decide (b.season_number ≤ a.season_number) ||
          decide (a.season_number ≤ b.season_number) := by
      intro a b
      rcases le_total a.season_number b.season_number with h | h <;> simp [h]
    rcases hms : (seasons.filter
        (fun s => 0 < s.season_number && airDateTruthy s.air_date)).mergeSort
        (fun a b => decide (b.season_number ≤ a.season_number)) with _ | ⟨sTop, rest⟩
    · simp only [hms] at hcompute
      have hfilter : seasons.filter
          (fun s => 0 < s.season_number && airDateTruthy s.air_date) = [] := by
        have hperm := List.mergeSort_perm (seasons.filter
          (fun s => 0 < s.season_number && airDateTruthy s.air_date))
          (fun a b => decide (b.season_number ≤ a.season_number))
        rw [hms] at hperm
        exact (List.Perm.nil_eq hperm).symm
      simp [hcompute, hfilter]
    · simp only [hms] at hcompute
      have hmem : sTop ∈ seasons.filter
          (fun s => 0 < s.season_number && airDateTruthy s.air_date) := by
        have h0 : sTop ∈ (seasons.filter
            (fun s => 0 < s.season_number && airDateTruthy s.air_date)).mergeSort
            (fun a b => decide (b.season_number ≤ a.season_number)) := by
          rw [hms]
          exact List.mem_cons_self _ _
        exact List.mem_mergeSort.mp h0
      have htruthy : airDateTruthy sTop.air_date = true := by
        have hof := List.of_mem_filter hmem
        simp only [Bool.and_eq_true] at hof
        exact hof.2
      obtain ⟨dTop, hdTop⟩ : ∃ dTop, sTop.air_date = some dTop := by
        rcases hair : sTop.air_date with _ | d
        · rw [hair] at htruthy
          simp [airDateTruthy] at htruthy
        · exact ⟨d, rfl⟩
      have hfilter_ne : seasons.filter
          (fun s => 0 < s.season_number && airDateTruthy s.air_date) ≠ [] := by
        intro hcontra
        rw [hcontra] at hmem
        simp at hmem
      rw [hcompute, hdTop]
      constructor
      · constructor
        · intro hcontra
          cases hcontra
        · intro hcontra
          exact absurd hcontra hfilter_ne
      · intro d hd
        refine ⟨sTop, hmem, by rw [hdTop, ← hd], ?_⟩
        intro t ht
        have ht' : t ∈ (seasons.filter
            (fun s => 0 < s.season_number && airDateTruthy s.air_date)).mergeSort
            (fun a b => decide (b.season_number ≤ a.season_number)) :=
          List.mem_mergeSort.mpr ht
        rw [hms] at ht'
        rcases List.mem_cons.mp ht' with hteq | htrest
        · rw [hteq]
        · have hsorted := List.sorted_mergeSort htrans htotal
            (seasons.filter (fun s => 0 < s.season_number && airDateTruthy s.air_date))
          rw [hms] at hsorted
          have hle := (List.pairwise_cons.mp hsorted).1 t htrest
          simpa using hle

/-- Witness for the amended C9 at a concrete input. -/
theorem c9_latest_season_amended_witness :
    ∃ s ∈ ([⟨1, some "2020-01-01"⟩, ⟨2, none⟩] : List TMDBSeasonRaw).filter
        (fun s => 0 < s.season_number && airDateTruthy s.air_date),
      s.air_date = some "2020-01-01" ∧
        ∀ t ∈ ([⟨1, some "2020-01-01"⟩, ⟨2, none⟩] : List TMDBSeasonRaw).filter
            (fun s => 0 < s.season_number && airDateTruthy s.air_date),
          t.season_number ≤ s.season_number :=
  (c9_latest_season_amended [⟨1, some "2020-01-01"⟩, ⟨2, none⟩]).2 "2020-01-01"
    (by simp [computeLatestSeasonAirDate, airDateTruthy, List.mergeSort_singleton])

/-! ## Sorting (claim C5) -/

/-- Two enriched shows that are distinct but tie on tier, date and
`created_at`. -/
def csShowA : EnrichedUserShow :=
  { id := "a", user_id := "u", tvmaze_show_id := 1, show_name := "A",
    show_poster := none, show_backdrop := none, status := "watching",
    created_at := 0, newSeasonTag := none, nextEpisodeAirDate := none,
    hasUpcomingEpisodesInCurrentSeason := false }

/-- Companion of `csShowA` with a different id. -/
def csShowB : EnrichedUserShow :=
  { id := "b", user_id := "u", tvmaze_show_id := 2, show_name := "B",
    show_poster := none, show_backdrop := none, status := "watching",
    created_at := 0, newSeasonTag := none, nextEpisodeAirDate := none,
    hasUpcomingEpisodesInCurrentSeason := false }

/-- C5 counterexample: the comparator is not a strict total order — two
distinct shows (same tier, no dates, equal `created_at`) compare as 0. -/
theorem c5_strict_total_order_counterexample :
    compareShows [] csShowA csShowB = 0 ∧ csShowA ≠ csShowB := by
  decide

/-- C5 (amended): the sort uses the stated priority tiers; the comparator
is antisymmetric and, as a weak order (`compareShows ≤ 0`), transitive and
total (a total preorder, not a strict total order); within a tier it
compares by `sortDate` (later date first, dated before undated, then
`created_at` descending); sorting is idempotent; and shows that tie under
the comparator keep their original relative order. -/
theorem c5_sort_properties (m : List (Int × ShowSeasonMeta)) (l : List EnrichedUserShow) :
    (∀ e : EnrichedUserShow,
      (e.status = "watching" → getSortPriority e = 0) ∧
      (e.status = "plan_to_watch" → getSortPriority e = 1) ∧
      (e.status = "on_hold" → getSortPriority e = 2) ∧
      (e.status = "completed" → getSortPriority e = 3) ∧
      (e.status = "dropped" → getSortPriority e = 4) ∧
      (e.status ∉ ["watching", "plan_to_watch", "on_hold", "completed", "dropped"] →
        getSortPriority e = 5)) ∧
    (∀ a b, compareShows m b a = - compareShows m a b) ∧
    (∀ a b, getSortPriority a = getSortPriority b →
      compareShows m a b =
        match sortDate m a, sortDate m b with
        | some da, some db => db - da
        | some _, none => -1
        | none, some _ => 1
        | none, none => b.created_at - a.created_at) ∧
    (∀ a b c, compareShows m a b ≤ 0 → compareShows m b c ≤ 0 →
      compareShows m a c ≤ 0) ∧
    (∀ a b, compareShows m a b ≤ 0 ∨ compareShows m b a ≤ 0) ∧
    (sortShows m (sortShows m l) = sortShows m l) ∧
    (∀ a b, compareShows m a b = 0 → [a, b].Sublist l →
      [a, b].Sublist (sortShows m l)) := by
  have cdef : ∀ a b, compareShows m a b =
      if getSortPriority a ≠ getSortPriority b then
        getSortPriority a - getSortPriority b
      else
        match sortDate m a, sortDate m b with
        | some da, some db => db - da
        | some _, none => -1
        | none, some _ => 1
        | none, none => b.created_at - a.created_at := fun a b => rfl
  have antisym : ∀ a b, compareShows m b a = - compareShows m a b := by
    intro a b
    rw [cdef, cdef]
    by_cases hp : getSortPriority a = getSortPriority b
    · rw [if_neg (fun hc => hc hp.symm), if_neg (fun hc => hc hp)]
      rcases hda : sortDate m a with _ | da <;> rcases hdb : sortDate m b with _ | db <;>
        simp only [hda, hdb] <;> omega
    · rw [if_pos (fun hc => hp hc.symm), if_pos hp]
      omega
  have trans : ∀ a b c, compareShows m a b ≤ 0 → compareShows m b c ≤ 0 →
      compareShows m a c ≤ 0 := by
    intro a b c hab hbc
    rw [cdef] at hab hbc ⊢
    by_cases h1 : getSortPriority a = getSortPriority b <;>
      by_cases h2 : getSortPriority b = getSortPriority c
    · have h3 : getSortPriority a = getSortPriority c := h1.trans h2
      rw [if_neg (fun hc => hc h1)] at hab
      rw [if_neg (fun hc => hc h2)] at hbc
      rw [if_neg (fun hc => hc h3)]
      rcases hda : sortDate m a with _ | da <;>
        rcases hdb : sortDate m b with _ | db <;>
        rcases hdc : sortDate m c with _ | dc <;>
        simp only [hda, hdb, hdc] at hab hbc ⊢ <;> omega
    · have h3 : getSortPriority a ≠ getSortPriority c := fun hc => h2 (h1.symm.trans hc)
      rw [if_neg (fun hc => hc h1)] at hab
      rw [if_pos h2] at hbc
      rw [if_pos h3]
      omega
    · have h3 : getSortPriority a ≠ getSortPriority c := fun hc => h1 (hc.trans h2.symm)
      rw [if_pos h1] at hab
      rw [if_neg (fun hc => hc h2)] at hbc
      rw [if_pos h3]
      omega
    · rw [if_pos h1] at hab
      rw [if_pos h2] at hbc
      by_cases h3 : getSortPriority a = getSortPriority c
      · exfalso
        omega
      · rw [if_pos h3]
        omega
  have total : ∀ a b, compareShows m a b ≤ 0 ∨ compareShows m b a ≤ 0 := by
    intro a b
    have h := antisym a b
    omega
  have btrans : ∀ a b c : EnrichedUserShow,
      decide (compareShows m a b ≤ 0) → decide (compareShows m b c ≤ 0) →
      decide (compareShows m a c ≤ 0) := by
    intro a b c hab hbc
    simp only [decide_eq_true_eq] at hab hbc ⊢
    exact trans a b c hab hbc
  have btotal : ∀ a b : EnrichedUserShow,
      decide (compareShows m a b ≤ 0) || decide (compareShows m b a ≤ 0) := by
    intro a b
    rcases total a b with h | h <;> simp [h]
  refine ⟨?_, antisym, ?_, trans, total, ?_, ?_⟩
  · intro e
    refine ⟨fun h => by simp [getSortPriority, h], fun h => by simp [getSortPriority, h],
      fun h => by simp [getSortPriority, h], fun h => by simp [getSortPriority, h],
      fun h => by simp [getSortPriority, h], fun h => ?_⟩
    simp only [List.mem_cons, List.not_mem_nil, or_false] at h
    push_neg at h
    obtain ⟨h1, h2, h3, h4, h5⟩ := h
    simp [getSortPriority, h1, h2, h3, h4, h5]
  · intro a b hp
    rw [cdef, if_neg (fun hc => hc hp)]
  · exact List.mergeSort_of_sorted (List.sorted_mergeSort btrans btotal l)
  · intro a b hzero hsub
    exact List.pair_sublist_mergeSort btrans btotal (by simp [hzero]) hsub

/-- Witness for the amended C5 at a concrete input. -/
theorem c5_sort_properties_witness :
    sortShows [] (sortShows [] [csShowA, csShowB]) = sortShows [] [csShowA, csShowB] :=
  (c5_sort_properties [] [csShowA, csShowB]).2.2.2.2.2.1

/-! ## Shape of `enrichUserShows` on non-empty input (claims C6, C10) -/

/-- `autoMoveShow` never changes the id. -/
theorem autoMoveShow_id (e : EnrichedUserShow) : (autoMoveShow e).id = e.id := by
  unfold autoMoveShow
  split_ifs <;> rfl

/-- `autoMoveShow` is the identity when there is no upcoming same-season
episode. -/
theorem autoMoveShow_of_not_upcoming (e : EnrichedUserShow)
    (h : e.hasUpcomingEpisodesInCurrentSeason = false) : autoMoveShow e = e := by
  unfold autoMoveShow
  rw [if_neg]
  rintro ⟨-, hub⟩
  rw [h] at hub
  cases hub

/-- The result of `enrichUserShows` on non-empty input, unfolded. -/
theorem enrichUserShows_result (now threeMonthsAgo threeMonthsLater : Int)
    (metaResults : List (Option ShowSeasonMeta)) (watchData : Option (List WatchRow))
    (shows : List UserShow) (hne : shows ≠ []) :
    (enrichUserShows now threeMonthsAgo threeMonthsLater metaResults watchData
        shows).result =
      sortShows (buildMetaMap shows metaResults)
        ((shows.map (enrichOne now threeMonthsAgo threeMonthsLater
          (buildMetaMap shows metaResults)
          (match watchData with
            | some rows => buildMaxWatchedSeasonMap rows
            | none => []))).map autoMoveShow) := by
  unfold enrichUserShows
  rw [if_neg (fun hc => hne (List.length_eq_zero.mp hc))]

/-- The update commands of `enrichUserShows` on non-empty input, unfolded. -/
theorem enrichUserShows_commands (now threeMonthsAgo threeMonthsLater : Int)
    (metaResults : List (Option ShowSeasonMeta)) (watchData : Option (List WatchRow))
    (shows : List UserShow) (hne : shows ≠ []) :
    (enrichUserShows now threeMonthsAgo threeMonthsLater metaResults watchData
        shows).statusUpdateCommands =
      if 0 < (autoMovedIds (shows.map (enrichOne now threeMonthsAgo threeMonthsLater
          (buildMetaMap shows metaResults)
          (match watchData with
            | some rows => buildMaxWatchedSeasonMap rows
            | none => [])))).length
      then [("watching", autoMovedIds (shows.map (enrichOne now threeMonthsAgo
          threeMonthsLater (buildMetaMap shows metaResults)
          (match watchData with
            | some rows => buildMaxWatchedSeasonMap rows
            | none => []))))]
      else [] := by
  unfold enrichUserShows
  rw [if_neg (fun hc => hne (List.length_eq_zero.mp hc))]

/-- C10: for every non-empty input list, whatever the fetch outcomes, the
output is a permutation of the (enriched) input: the ids are a permutation
of the input ids, the length is preserved, and under the one-row-per-show
invariant every input id appears exactly once in the output. -/
theorem c10_output_permutation (now threeMonthsAgo threeMonthsLater : Int)
    (metaResults : List (Option ShowSeasonMeta)) (watchData : Option (List WatchRow))
    (shows : List UserShow) (hne : shows ≠ []) :
    ((enrichUserShows now threeMonthsAgo threeMonthsLater metaResults watchData
        shows).result.map (fun e => e.id)).Perm (shows.map (fun s => s.id)) ∧
    (enrichUserShows now threeMonthsAgo threeMonthsLater metaResults watchData
        shows).result.length = shows.length ∧
    ((shows.map (fun s => s.id)).Nodup → ∀ s ∈ shows,
      ((enrichUserShows now threeMonthsAgo threeMonthsLater metaResults watchData
        shows).result.map (fun e => e.id)).count s.id = 1) := by
  rw [enrichUserShows_result now threeMonthsAgo threeMonthsLater metaResults
    watchData shows hne]
  set mm := buildMetaMap shows metaResults with hmm
  set mw := (match watchData with
    | some rows => buildMaxWatchedSeasonMap rows
    | none => ([] : List (Int × Int))) with hmw
  set moved := (shows.map (enrichOne now threeMonthsAgo threeMonthsLater mm mw)).map
    autoMoveShow with hmoved
  have hperm : (sortShows mm moved).Perm moved := List.mergeSort_perm _ _
  have hmapid : moved.map (fun e => e.id) = shows.map (fun s => s.id) := by
    rw [hmoved, List.map_map, List.map_map]
    apply List.map_congr_left
    intro x hx
    show (autoMoveShow (enrichOne now threeMonthsAgo threeMonthsLater mm mw x)).id = x.id
    rw [autoMoveShow_id]
    rfl
  refine ⟨?_, ?_, ?_⟩
  · have h := hperm.map (fun e => e.id)
    rw [hmapid] at h
    exact h
  · rw [hperm.length_eq, hmoved]
    simp
  · intro hnodup s hs
    have hcount := (hperm.map (fun e => e.id)).count_eq s.id
    rw [hmapid] at hcount
    rw [hcount]
    exact List.count_eq_one_of_mem hnodup (List.mem_map_of_mem _ hs)

/-- Witness for C10 at a concrete input. -/
theorem c10_output_permutation_witness :
    ((enrichUserShows 0 (-90) 90 [some sampleMetaSoon] (some [])
        [sampleShowCompleted]).result.map (fun e => e.id)).Perm
      ([sampleShowCompleted].map (fun s => s.id)) :=
  (c10_output_permutation 0 (-90) 90 [some sampleMetaSoon] (some [])
    [sampleShowCompleted] (by simp)).1

/-- If every zipped (show, outcome) pair for a given show id carries a
failed outcome, `metaMap` has no entry for that id. -/
theorem mapGet_buildMetaMap_none (shows : List UserShow)
    (metaResults : List (Option ShowSeasonMeta)) (k : Int)
    (hfail : ∀ p ∈ List.zip shows metaResults, p.1.tvmaze_show_id = k → p.2 = none) :
    mapGet (buildMetaMap shows metaResults) k = none := by
  unfold buildMetaMap
  suffices hgen : ∀ (pairs : List (UserShow × Option ShowSeasonMeta)),
      (∀ p ∈ pairs, p.1.tvmaze_show_id = k → p.2 = none) →
      ∀ m : List (Int × ShowSeasonMeta), mapGet m k = none →
      mapGet (pairs.foldl
        (fun m p =>
          match p.2 with
          | some meta => mapSet m p.1.tvmaze_show_id meta
          | none => m) m) k = none by
    exact hgen (List.zip shows metaResults) hfail [] rfl
  intro pairs
  induction pairs with
  | nil => intro _ m hm; exact hm
  | cons p pairs ih =>
    intro hf m hm
    simp only [List.foldl_cons]
    apply ih (fun q hq hqk => hf q (List.mem_cons_of_mem p hq) hqk)
    rcases hp2 : p.2 with _ | meta
    · exact hm
    · have hne : p.1.tvmaze_show_id ≠ k := by
        intro hc
        have hcontra := hf p (List.mem_cons_self p pairs) hc
        rw [hp2] at hcontra
        cases hcontra
      rw [mapGet_mapSet_ne m k p.1.tvmaze_show_id meta (fun hc => hne hc.symm)]
      exact hm

/-- C6: a failed metadata fetch for one show does not abort the others:
the failed show is still in the (sorted) output with null tag, null next
air date, false upcoming flag and its status unchanged, and no status
update command names it. -/
theorem c6_failed_fetch_isolated (now threeMonthsAgo threeMonthsLater : Int)
    (metaResults : List (Option ShowSeasonMeta)) (watchData : Option (List WatchRow))
    (shows : List UserShow) (s : UserShow) (hs : s ∈ shows)
    (hnodup : (shows.map (fun t => t.id)).Nodup)
    (hfail : ∀ p ∈ List.zip shows metaResults,
      p.1.tvmaze_show_id = s.tvmaze_show_id → p.2 = none) :
    (∃ e ∈ (enrichUserShows now threeMonthsAgo threeMonthsLater metaResults watchData
        shows).result,
      e.id = s.id ∧ e.status = s.status ∧ e.newSeasonTag = none ∧
        e.nextEpisodeAirDate = none ∧ e.hasUpcomingEpisodesInCurrentSeason = false) ∧
    (∀ cmd ∈ (enrichUserShows now threeMonthsAgo threeMonthsLater metaResults watchData
        shows).statusUpdateCommands, s.id ∉ cmd.2) := by
  have hne : shows ≠ [] := List.ne_nil_of_mem hs
  have hmeta : mapGet (buildMetaMap shows metaResults) s.tvmaze_show_id = none :=
    mapGet_buildMetaMap_none shows metaResults s.tvmaze_show_id hfail
  rw [enrichUserShows_result now threeMonthsAgo threeMonthsLater metaResults
      watchData shows hne,
    enrichUserShows_commands now threeMonthsAgo threeMonthsLater metaResults
      watchData shows hne]
  set mm := buildMetaMap shows metaResults with hmm
  set mw := (match watchData with
    | some rows => buildMaxWatchedSeasonMap rows
    | none => ([] : List (Int × Int))) with hmw
  have hsenrich : enrichOne now threeMonthsAgo threeMonthsLater mm mw s =
      { id := s.id, user_id := s.user_id, tvmaze_show_id := s.tvmaze_show_id,
        show_name := s.show_name, show_poster := s.show_poster,
        show_backdrop := s.show_backdrop, status := s.status,
        created_at := s.created_at, newSeasonTag := none,
        nextEpisodeAirDate := none,
        hasUpcomingEpisodesInCurrentSeason := false } :=
    enrichOne_eq_no_meta now threeMonthsAgo threeMonthsLater mm mw s hmeta
  constructor
  · refine ⟨autoMoveShow (enrichOne now threeMonthsAgo threeMonthsLater mm mw s),
      ?_, ?_⟩
    · unfold sortShows
      rw [List.mem_mergeSort]
      exact List.mem_map_of_mem autoMoveShow
        (List.mem_map_of_mem (enrichOne now threeMonthsAgo threeMonthsLater mm mw) hs)
    · rw [autoMoveShow_of_not_upcoming _ (by rw [hsenrich]), hsenrich]
      exact ⟨rfl, rfl, rfl, rfl, rfl⟩
  · intro cmd hcmd
    by_cases hlen : 0 < (autoMovedIds (shows.map
        (enrichOne now threeMonthsAgo threeMonthsLater mm mw))).length
    · rw [if_pos hlen] at hcmd
      rcases List.mem_cons.mp hcmd with hc | hc
      · subst hc
        intro hmem
        unfold autoMovedIds at hmem
        rw [List.mem_map] at hmem
        obtain ⟨e, hefilter, heid⟩ := hmem
        have hem := List.of_mem_filter hefilter
        have hemem := List.mem_of_mem_filter hefilter
        rw [List.mem_map] at hemem
        obtain ⟨t, hts, hte⟩ := hemem
        have htid : t.id = s.id := by
          rw [← heid, ← hte]
          rfl
        have hts' : t = s :=
          List.inj_on_of_nodup_map hnodup hts hs htid
        subst hts'
        rw [← hte, hsenrich] at hem
        simp at hem
      · simp at hc
    · rw [if_neg hlen] at hcmd
      simp at hcmd

/-- Witness for C6 at a concrete input (single show whose fetch failed). -/
theorem c6_failed_fetch_isolated_witness :
    ∃ e ∈ (enrichUserShows 0 (-90) 90 [none] (some []) [sampleShowCompleted]).result,
      e.id = sampleShowCompleted.id ∧ e.status = sampleShowCompleted.status ∧
        e.newSeasonTag = none ∧ e.nextEpisodeAirDate = none ∧
        e.hasUpcomingEpisodesInCurrentSeason = false :=
  (c6_failed_fetch_isolated 0 (-90) 90 [none] (some []) [sampleShowCompleted]
    sampleShowCompleted (by simp) (by simp) (by simp)).1

end ShowTrackr
